import Mathlib

/-!
Verification of the execution-tracing engine of the `devtools` repository
(`devtools/debugger.py`): the call-tree tracer `dbg` and the interactive
step debugger `step_debugger` / `_debug_function_sync` / `_debug_function_async`,
together with the variable formatter `_display_variables`.

The embedding models the CPython `sys.settrace` protocol faithfully: the
function passed to `sys.settrace` is the *global* trace callback and is invoked
by the runtime only for `"call"` events of newly entered frames; the value it
returns becomes that frame's *local* trace callback and receives the frame's
subsequent `"line"`, `"return"` (and `"exception"`) events.  A local callback
returning `None` stops tracing of that frame.  An exception raised inside a
trace callback disables tracing and propagates inside the traced frame.

Mutable `rich.tree.Tree` objects are modelled by an arena (`List TNode`)
indexed by allocation order; the shared global variables `CALL_STACK` and
`DEBUG_TREE` hold arena indices.  `CALL_STACK` is stored top-first, so the
Python idioms `CALL_STACK[-1]`, `CALL_STACK.append(x)` and `CALL_STACK.pop()`
become `head`, `cons` and `tail`.  Calls to `Tree.add` that pass a plain string
are modelled as leaf children; calls that pass another `Tree` are modelled as
`sub` children holding the arena index of the added tree.

Console output is modelled as an explicit list of output events; operator input
(`console.input`) as an explicit list of pending input strings, where running
out of input corresponds to the interactive session demanding (blocking for)
one more operator command (`Exc.eofError`).  `sys.exit(0)` raises
`SystemExit(0)`, an ordinary catchable exception, modelled as
`Exc.systemExit 0`.  Clock readings of `time.time()` (wall clock, not
monotonic) are passed in as two rational parameters.
-/

namespace Devtools

/-- Python runtime values appearing in the traced scenarios.  `badRepr` stands
for a value whose `repr()` / `str()` raises. -/
inductive Val where
  | int (n : Int)
  | pyNone
  | badRepr
deriving DecidableEq, Repr

/-- Python exceptions relevant to the traced code paths. -/
inductive Exc where
  | userError (msg : String)
  | unboundLocal (name : String)
  | reprFailure
  | indexError
  | eofError
  | systemExit (code : Nat)
deriving DecidableEq, Repr

/-- Python `repr(v)`: decimal rendering for ints, raises for `badRepr`. -/
def pyReprE : Val → Except Exc String
  | .int n => .ok (toString n)
  | .pyNone => .ok ("None")
  | .badRepr => .error .reprFailure

/-- Python `str(v)` as used by f-string interpolation; for ints and `None` this agrees
with `repr`, and it raises for `badRepr`. -/
def pyStrE : Val → Except Exc String
  | .int n => .ok (toString n)
  | .pyNone => .ok ("None")
  | .badRepr => .error .reprFailure

/-- Whitespace characters stripped by `str.strip()` (ASCII subset, which covers
every string the debugger handles). -/
def isPySpace (c : Char) : Bool :=
  c = ' ' || c = '\t' || c = '\n' || c = '\r' || c = '\x0b' || c = '\x0c'

/-- Python `str.strip()`: remove leading and trailing whitespace. -/
def pyStrip (s : String) : String :=
  ⟨((s.toList.dropWhile isPySpace).reverse.dropWhile isPySpace).reverse⟩

/-- ASCII lowercasing of one character, as done by `str.lower()` on the
command strings the debugger compares against. -/
def pyLowerChar (c : Char) : Char :=
  if 'A' ≤ c ∧ c ≤ 'Z' then Char.ofNat (c.toNat + 32) else c

/-- Python `str.lower()`. -/
def pyLower (s : String) : String :=
  ⟨s.toList.map pyLowerChar⟩

/-- Kind of a leaf child added to a `Tree` via `.add(string)`: a variable
entry (debugger.py line 57) or a return-value label (lines 43 and 76). -/
inductive LeafKind where
  | varEntry
  | retLabel
deriving DecidableEq, Repr

/-- A child of a tree node: either a nested `Tree` (held by arena index) or a
plain-string leaf.  The `LeafKind` tag records which source line created the
leaf; the label string itself is the one the source builds. -/
inductive ChildItem where
  | sub (id : Nat)
  | leaf (k : LeafKind) (label : String)
deriving DecidableEq, Repr

/-- Kind of an arena-allocated `Tree`: an invocation node (debugger.py line 33)
or a per-line variable-snapshot node (line 55). -/
inductive NodeKind where
  | callNode
  | varsLine
deriving DecidableEq, Repr

/-- One `rich.tree.Tree` object, with the construction-site tag, the label the
source gives it, and its ordered children. -/
structure TNode where
  kind : NodeKind
  label : String
  children : List ChildItem
deriving DecidableEq, Repr

/-- Arena lookup (object referenced by index `i`). -/
def nodeAt : List TNode → Nat → Option TNode
  | [], _ => none
  | nd :: _, 0 => some nd
  | _ :: rest, n + 1 => nodeAt rest n

/-- Calling `Tree.add` on the object at index `p`: append one child.  Out-of-range
indices leave the arena unchanged (they never occur in reachable states). -/
def attachAt : List TNode → Nat → ChildItem → List TNode
  | [], _, _ => []
  | nd :: rest, 0, it => ⟨nd.kind, nd.label, nd.children ++ [it]⟩ :: rest
  | nd :: rest, p + 1, it => nd :: attachAt rest p it

/-- A Python code object: its object identity and its `co_name`. -/
structure Code where
  id : Nat
  coName : String
deriving DecidableEq, Repr

/-- The traced function: `__name__`, `__code__`, and its declared parameters
with optional integer defaults (what `inspect.signature` reflects). -/
structure PyFunc where
  name : String
  code : Code
  params : List (String × Option Int)
deriving DecidableEq, Repr

/-- Rendering of one parameter inside `str(inspect.signature(func))`. -/
def paramStr : String × Option Int → String
  | (n, none) => n
  | (n, some v) => n ++ "=" ++ toString v

/-- Rendering of `str(inspect.signature(func))`, e.g. `(x=5, y=10)`: the *declared*
signature with defaults, independent of any particular invocation. -/
def sigStr (ps : List (String × Option Int)) : String :=
  "(" ++ String.intercalate (", ") (ps.map paramStr) ++ ")"

/-- The label given to an invocation node (debugger.py line 33). -/
def callLabel (func : PyFunc) : String :=
  "[bold cyan]▶ Function Called: " ++ func.name ++ sigStr func.params ++ "[/bold cyan]"

/-- The label given to a variable-snapshot node (debugger.py line 55). -/
def varsLineLabel (lineno : Nat) (coName : String) : String :=
  "[blue]Line " ++ toString lineno ++ " in `" ++ coName ++ "`[/blue]"

/-- The label of one variable entry (debugger.py line 57), given the already
rendered `repr` of the value. -/
def varEntryLabel (var rendered : String) : String :=
  "[magenta]" ++ var ++ "[/magenta]: [yellow]" ++ rendered ++ "[/yellow]"

/-- The return-value label (debugger.py lines 43 and 76), given the rendered
`str` of the value. -/
def retLabelStr (rendered : String) : String :=
  "[bold green]✔ Return:[/bold green] " ++ rendered

/-- A frame-level event as delivered by the runtime to a trace callback:
`"call"`, `"line"` (with line number, source text and current local bindings),
or `"return"` (with the outgoing value). -/
inductive PyEvent where
  | call
  | line (lineno : Nat) (src : String) (locals : List (String × Val))
  | ret (arg : Val)
deriving DecidableEq, Repr

/-- The builder state held in the module globals of debugger.py:
`CALL_STACK` (top-first list of arena indices) and `DEBUG_TREE`, plus the
arena backing all `Tree` objects allocated so far. -/
structure DbgState where
  arena : List TNode
  callStack : List Nat
  debugTree : Option Nat
deriving DecidableEq, Repr

/-- The module state right after import: `CALL_STACK = []`, `DEBUG_TREE = None`. -/
def dbgInit0 : DbgState := ⟨[], [], none⟩

/-- The local trace callback a `dbg` frame can carry (`trace_lines`). -/
inductive DbgLocal where
  | traceLines
deriving DecidableEq, Repr

/-- Embedding of `trace_calls` (debugger.py lines 23-47).  Returns the updated
builder state and the local trace callback returned for the frame (`some
.traceLines` when the name matches, `none` otherwise).  The `"return"` branch
indexes `CALL_STACK[-1]`, which raises `IndexError` on an empty list. -/
def traceCallsFn (func : PyFunc) (frameCode : Code) (ev : PyEvent) (st : DbgState) :
    Except Exc (DbgState × Option DbgLocal) :=
  if frameCode.coName = func.name then
    match ev with
    | .call =>
      let i := st.arena.length
      let ar := st.arena ++ [⟨.callNode, callLabel func, []⟩]
      match st.callStack with
      | top :: rest =>
        .ok (⟨attachAt ar top (.sub i), i :: top :: rest, st.debugTree⟩, some .traceLines)
      | [] =>
        .ok (⟨ar, [i], some i⟩, some .traceLines)
    | .ret a =>
      match st.callStack with
      | [] => .error .indexError
      | top :: rest =>
        match pyStrE a with
        | .error e => .error e
        | .ok s =>
          .ok (⟨attachAt st.arena top (.leaf .retLabel (retLabelStr s)), rest, st.debugTree⟩,
               some .traceLines)
    | .line _ _ _ => .ok (st, some .traceLines)
  else
    .ok (st, none)

/-- The loop at debugger.py lines 56-57: add one leaf per local variable to the
snapshot node at index `i`; `repr(val)` may raise, aborting the loop. -/
def addVarEntries (ar : List TNode) (i : Nat) : List (String × Val) → Except Exc (List TNode)
  | [] => .ok ar
  | (var, v) :: rest =>
    match pyReprE v with
    | .error e => .error e
    | .ok s => addVarEntries (attachAt ar i (.leaf .varEntry (varEntryLabel var s))) i rest

/-- Embedding of `trace_lines` (debugger.py lines 49-60): on a `"line"` event
with a non-empty `CALL_STACK` and non-empty locals, build a snapshot node,
populate it (unguarded `repr` — may raise), then attach it to the stack top.
All other events are ignored.  Always returns itself as the local tracer. -/
def traceLinesFn (frameCode : Code) (ev : PyEvent) (st : DbgState) :
    Except Exc (DbgState × Option DbgLocal) :=
  match ev with
  | .line lineno _src locals =>
    match st.callStack with
    | [] => .ok (st, some .traceLines)
    | top :: rest =>
      if locals.isEmpty then .ok (st, some .traceLines)
      else
        let i := st.arena.length
        let ar := st.arena ++ [⟨.varsLine, varsLineLabel lineno frameCode.coName, []⟩]
        match addVarEntries ar i locals with
        | .error e => .error e
        | .ok ar2 =>
          .ok (⟨attachAt ar2 top (.sub i), top :: rest, st.debugTree⟩, some .traceLines)
  | _ => .ok (st, some .traceLines)

/-- One runtime event: the code object of the frame it belongs to, plus the
event payload. -/
structure Ev where
  code : Code
  kind : PyEvent
deriving DecidableEq, Repr

/-- The builder state together with the runtime frame stack (top-first); each
frame records the local trace callback installed for it, if any. -/
structure DbgMachine where
  st : DbgState
  frames : List (Option DbgLocal)
deriving DecidableEq, Repr

/-- One step of the settrace protocol while `trace_calls` is the registered
global callback: a `"call"` event invokes the global callback and pushes the
frame with the local tracer it returned; `"line"` and `"return"` events are
delivered to the current frame's local tracer (if any); a `"return"` event
pops the frame.  An exception from a callback is reported and stops tracing. -/
def dbgStep (func : PyFunc) (m : DbgMachine) (e : Ev) : DbgMachine × Option Exc :=
  match e.kind with
  | .call =>
    match traceCallsFn func e.code .call m.st with
    | .ok (st, loc) => (⟨st, loc :: m.frames⟩, none)
    | .error ex => (m, some ex)
  | .line n src locals =>
    match m.frames with
    | some .traceLines :: rest =>
      match traceLinesFn e.code (.line n src locals) m.st with
      | .ok (st, loc) => (⟨st, loc :: rest⟩, none)
      | .error ex => (m, some ex)
    | _ => (m, none)
  | .ret a =>
    match m.frames with
    | some .traceLines :: rest =>
      match traceLinesFn e.code (.ret a) m.st with
      | .ok (st, _) => (⟨st, rest⟩, none)
      | .error ex => (⟨m.st, rest⟩, some ex)
    | _ :: rest => (⟨m.st, rest⟩, none)
    | [] => (m, none)

/-- Run the event machine over a list of events, stopping at the first
exception raised by a trace callback (tracing is disabled and the exception
propagates inside the traced call). -/
def dbgRun (func : PyFunc) (m : DbgMachine) : List Ev → DbgMachine × Option Exc
  | [] => (m, none)
  | e :: rest =>
    match dbgStep func m e with
    | (m2, none) => dbgRun func m2 rest
    | (m2, some ex) => (m2, some ex)

/-- Items printed by the `dbg` wrapper: the rendered tree (by root index) and
the execution-time line (milliseconds value that is formatted with `:.2f`). -/
inductive OutEv where
  | tree (root : Nat)
  | time (ms : ℚ)
deriving DecidableEq, Repr

/-- The `finally` block of `wrapper` inside `dbg` (debugger.py lines 71-79),
run after `sys.settrace(None)`, with `execution_time` already computed from the
two `time.time()` readings.  When `is_top_level` holds and `DEBUG_TREE` is set:
on a successful `result` the return label is added to the root, the tree and
the timing line are printed, and `DEBUG_TREE` is cleared; but if `func` raised,
the f-string at line 76 reads the variable `result`, which was never bound, so
that path raises `UnboundLocalError` (masking the original exception) and
neither prints nor clears `DEBUG_TREE`.  `CALL_STACK` is never reset here. -/
def dbgFinally (st : DbgState) (isTopLevel : Bool) (result : Except Exc Val)
    (executionTime : ℚ) : DbgState × List OutEv × Except Exc Val :=
  match isTopLevel, st.debugTree with
  | true, some root =>
    match result with
    | .ok v =>
      match pyStrE v with
      | .ok s =>
        (⟨attachAt st.arena root (.leaf .retLabel (retLabelStr s)), st.callStack, none⟩,
         [.tree root, .time executionTime], .ok v)
      | .error ex => (st, [], .error ex)
    | .error _ => (st, [], .error (.unboundLocal ("result")))
  | _, _ => (st, [], result)

/-- The wrapper proper: record `is_top_level` (line 65), install the hook and
run the traced call (the event machine), compute the propagating result, then
run the `finally` block with the elapsed wall-clock time in milliseconds. -/
def dbgWrapper (func : PyFunc) (s0 : DbgState) (evs : List Ev)
    (funcResult : Except Exc Val) (t0 t1 : ℚ) :
    DbgState × List OutEv × Except Exc Val :=
  let isTopLevel := s0.callStack.isEmpty
  let r := dbgRun func ⟨s0, []⟩ evs
  let result : Except Exc Val :=
    match r.2 with
    | some ex => .error ex
    | none => funcResult
  dbgFinally r.1.st isTopLevel result ((t1 - t0) * 1000)

/-- Items printed by the step debugger. -/
inductive StepOut where
  | execLine (lineno : Nat) (src : String)
  | noVars
  | varsTable (rows : List (String × String))
  | bpHit (lineno : Nat)
  | prompt
  | stopped
deriving DecidableEq, Repr

/-- The fixed placeholder printed when `repr(value)` raises
(debugger.py line 186). -/
def cannotDisplay : String := "[red]⚠ Cannot display value[/red]"

/-- The table rows built by `_display_variables` (debugger.py lines 181-186):
names starting with a double underscore are skipped, and a failing `repr` is
recovered by the `except` clause into the fixed placeholder. -/
def displayRows : List (String × Val) → List (String × String)
  | [] => []
  | (var, v) :: rest =>
    if var.startsWith ("__") then displayRows rest
    else
      (var, match pyReprE v with
            | .ok s => s
            | .error _ => cannotDisplay) :: displayRows rest

/-- Embedding of `_display_variables` (debugger.py lines 172-187): prints the
no-variables notice for an empty mapping, otherwise the formatted table. -/
def displayVariables (locals : List (String × Val)) : List StepOut :=
  if locals.isEmpty then [.noVars]
  else [.varsTable (displayRows locals)]

/-- The Python condition `breakpoint_line and line_no == breakpoint_line`
(debugger.py lines 115 and 150): a `None` or `0` breakpoint is falsy and never
triggers. -/
def bpCheck (bp : Option Nat) (lineno : Nat) : Bool :=
  match bp with
  | none => false
  | some b => if b = 0 then false else lineno = b

/-- Result of the operator-command loop: the `step_mode` flag after the loop,
the remaining operator inputs, the accumulated output, and the exception
raised (if any): `SystemExit 0` from `sys.exit(0)` on quit, or `eofError` when
the loop demands a command and none is supplied. -/
structure PauseRes where
  stepMode : Bool
  inputs : List String
  out : List StepOut
  exc : Option Exc
deriving DecidableEq, Repr

/-- Embedding of the `while step_mode:` loop (debugger.py lines 118-127):
each iteration prompts, consumes one input, strips and lowercases it; `n`
breaks leaving `step_mode` set, `c` clears `step_mode` and breaks, `q` prints
the stop notice and raises `SystemExit 0`; anything else loops (re-prompts). -/
def pauseLoop : Bool → List String → List StepOut → PauseRes
  | false, ins, out => ⟨false, ins, out, none⟩
  | true, [], out => ⟨true, [], out, some .eofError⟩
  | true, cmd :: rest, out =>
    let c := pyLower (pyStrip cmd)
    if c = "n" then ⟨true, rest, out ++ [.prompt], none⟩
    else if c = "c" then ⟨false, rest, out ++ [.prompt], none⟩
    else if c = "q" then ⟨true, rest, out ++ [.prompt, .stopped], some (.systemExit 0)⟩
    else pauseLoop true rest (out ++ [.prompt])

/-- A command string the pause loop recognizes after `strip().lower()`. -/
def recognizedCmd (cmd : String) : Bool :=
  let c := pyLower (pyStrip cmd)
  c = "n" || c = "c" || c = "q"

/-- State of one step-debugging session: the `step_mode` flag, the pending
operator inputs, and the console output so far. -/
structure StepState where
  stepMode : Bool
  inputs : List String
  out : List StepOut
deriving DecidableEq, Repr

/-- Embedding of the `trace_calls` closure of `_debug_function_sync`
(debugger.py lines 105-128); the closure in `_debug_function_async`
(lines 141-163) is textually identical.  Returns the updated session state,
the exception propagating out of the callback (if any), and the local tracer
returned for the frame (`some ()` = the callback itself, `none` = frame not
traced).  Non-matching code names are filtered at lines 108-109; `"line"`
events print the line and the variables, set `step_mode` on a breakpoint hit,
then run the pause loop; other events do nothing. -/
def stepTraceFn (func : PyFunc) (bp : Option Nat) (frameCode : Code) (ev : PyEvent)
    (st : StepState) : StepState × Option Exc × Option Unit :=
  if frameCode.coName ≠ func.name then (st, none, none)
  else
    match ev with
    | .line n src locals =>
      let out1 := st.out ++ [.execLine n (pyStrip src)] ++ displayVariables locals
      let hit := bpCheck bp n
      let stepMode := if hit then true else st.stepMode
      let out2 := if hit then out1 ++ [.bpHit n] else out1
      let r := pauseLoop stepMode st.inputs out2
      (⟨r.stepMode, r.inputs, r.out⟩, r.exc, some ())
    | _ => (st, none, some ())

/-- Session state together with the runtime frame stack (top-first); each
frame records whether the step callback is installed as its local tracer. -/
structure StepMachine where
  st : StepState
  frames : List Bool
deriving DecidableEq, Repr

/-- One step of the settrace protocol while the step callback is registered:
same dispatch discipline as `dbgStep` (the step callback returns itself, so it
serves as both global and local tracer for matching frames). -/
def stepStep (func : PyFunc) (bp : Option Nat) (m : StepMachine) (e : Ev) :
    StepMachine × Option Exc :=
  match e.kind with
  | .call =>
    let r := stepTraceFn func bp e.code .call m.st
    (⟨r.1, r.2.2.isSome :: m.frames⟩, r.2.1)
  | .line n src locals =>
    match m.frames with
    | true :: rest =>
      let r := stepTraceFn func bp e.code (.line n src locals) m.st
      (⟨r.1, r.2.2.isSome :: rest⟩, r.2.1)
    | _ => (m, none)
  | .ret a =>
    match m.frames with
    | true :: rest =>
      let r := stepTraceFn func bp e.code (.ret a) m.st
      (⟨r.1, rest⟩, r.2.1)
    | _ :: rest => (⟨m.st, rest⟩, none)
    | [] => (m, none)

/-- Run the step machine over the delivered events, stopping at the first
exception raised by the callback (`SystemExit` from quit, or the blocked
prompt). -/
def stepRun (func : PyFunc) (bp : Option Nat) (m : StepMachine) :
    List Ev → StepMachine × Option Exc
  | [] => (m, none)
  | e :: rest =>
    match stepStep func bp m e with
    | (m2, none) => stepRun func bp m2 rest
    | (m2, some ex) => (m2, some ex)

/-- Embedding of `_debug_function_sync` (debugger.py lines 101-135); the body
of `_debug_function_async` (lines 137-170) is identical except that the traced
call is awaited.  Inputs: the pending operator inputs, the events delivered
while `func` runs, and the outcome of `func` itself.  Output: the result
delivered to the caller (an exception raised inside the trace callback
propagates through the traced call), the final session state, and the state of
the process-wide trace hook after the `finally` block (always unregistered). -/
def stepWrapper (func : PyFunc) (bp : Option Nat) (inputs : List String)
    (evs : List Ev) (funcResult : Except Exc Val) :
    Except Exc Val × StepState × Bool :=
  let r := stepRun func bp ⟨⟨false, inputs, []⟩, []⟩ evs
  let result : Except Exc Val :=
    match r.2 with
    | some ex => .error ex
    | none => funcResult
  (result, r.1.st, false)

/-- A caller of the step-debugged function that wraps the call in
`try: ... except SystemExit: return "recovered"`: Python callers can intercept
the `SystemExit` raised by `sys.exit(0)`. -/
def callerCatchingSystemExit (r : Except Exc Val) : Option String :=
  match r with
  | .error (.systemExit _) => some ("recovered")
  | _ => none

/-- Is this child a return-value label? -/
def isRetChild : ChildItem → Bool
  | .leaf .retLabel _ => true
  | _ => false

/-- Number of return-value labels attached to one node. -/
def retChildren (nd : TNode) : Nat :=
  (nd.children.filter isRetChild).length

/-- Number of return-value labels attached to the node at arena index `i`. -/
def retChildrenAt (ar : List TNode) (i : Nat) : Nat :=
  match nodeAt ar i with
  | some nd => retChildren nd
  | none => 0

/-- No node of the arena carries a return-value label. -/
def NoRetLabels (ar : List TNode) : Prop :=
  ∀ nd ∈ ar, retChildren nd = 0

/-- The root index recorded in `DEBUG_TREE` is a valid arena index. -/
def TreeIdValid (st : DbgState) : Prop :=
  ∀ r, st.debugTree = some r → r < st.arena.length

/-- Modelled from the spec: the "invocation's bound-argument signature" that
§4.2 and the §8 scenario say the call label should carry — the actual argument
bindings of this invocation, rendered `(x=1, y=2)`.  Used only to compare the
spec's wording against the label the source builds. -/
def boundSigStr (args : List (String × Int)) : String :=
  "(" ++ String.intercalate (", ") (args.map (fun a => a.1 ++ "=" ++ toString a.2)) ++ ")"

/-- Modelled from the spec: the call label the claim describes, for a given
invocation. -/
def claimedCallLabel (func : PyFunc) (args : List (String × Int)) : String :=
  "[bold cyan]▶ Function Called: " ++ func.name ++ boundSigStr args ++ "[/bold cyan]"

/-- Whether a `"call"` event from code object `c` is forwarded to the
call-tree builder (the filtered `trace_calls` body runs and registers a local
tracer for the frame) when tracing starts in the initial module state. -/
def forwardedToBuilder (func : PyFunc) (c : Code) : Bool :=
  match traceCallsFn func c .call dbgInit0 with
  | .ok (_, some _) => true
  | _ => false

/-- Whether an event from code object `c` is forwarded to the step controller
(the filtered callback body runs and keeps the frame traced). -/
def forwardedToController (func : PyFunc) (bp : Option Nat) (c : Code) (ev : PyEvent)
    (st : StepState) : Bool :=
  (stepTraceFn func bp c ev st).2.2.isSome

/-- Code object of the §8 scenario function `f(x=5, y=10)`. -/
def fCode : Code := ⟨0, "f"⟩

/-- The §8 scenario function: `def f(x=5, y=10): z = x + y; return z`. -/
def funcF : PyFunc := ⟨"f", fCode, [("x", some 5), ("y", some 10)]⟩

/-- A different code object that happens to share the name `f`. -/
def otherFCode : Code := ⟨1, "f"⟩

/-- The events the runtime delivers while `f()` runs with its defaults:
one call, the two body lines with their locals, and the return of 15. -/
def scAEvents : List Ev :=
  [⟨fCode, .call⟩,
   ⟨fCode, .line 2 ("z = x + y") [("x", .int 5), ("y", .int 10)]⟩,
   ⟨fCode, .line 3 ("return z") [("x", .int 5), ("y", .int 10), ("z", .int 15)]⟩,
   ⟨fCode, .ret (.int 15)⟩]

/-- The events for a run of `f` whose body raises on its first line: the call
event fires, the line event fires, then the frame unwinds (the runtime sends a
return event with value `None` during the unwind). -/
def scRaiseEvents : List Ev :=
  [⟨fCode, .call⟩,
   ⟨fCode, .line 2 ("z = boom()") [("x", .int 5), ("y", .int 10)]⟩,
   ⟨fCode, .ret .pyNone⟩]

/-- Events containing a local variable whose `repr` raises. -/
def scBadReprEvents : List Ev :=
  [⟨fCode, .call⟩,
   ⟨fCode, .line 2 ("z = x + y") [("x", .badRepr)]⟩]

/-- Code object of the loop scenario function `g`. -/
def gCode : Code := ⟨3, "g"⟩

/-- A step-debugged function `g` whose loop body re-executes line 8. -/
def funcG : PyFunc := ⟨"g", gCode, []⟩

/-- Events for a run of `g` in which the configured breakpoint line 8 executes
twice (a loop body), then the call returns. -/
def scLoopEvents : List Ev :=
  [⟨gCode, .call⟩,
   ⟨gCode, .line 8 ("total += i") [("i", .int 0)]⟩,
   ⟨gCode, .line 8 ("total += i") [("i", .int 1)]⟩,
   ⟨gCode, .ret (.int 1)⟩]

/-- Events for a run of `g` that executes the breakpoint line once. -/
def scOnceEvents : List Ev :=
  [⟨gCode, .call⟩,
   ⟨gCode, .line 8 ("total += i") [("i", .int 0)]⟩,
   ⟨gCode, .ret (.int 0)⟩]

/-! ## Arena lemmas -/

theorem attachAt_length (ar : List TNode) (p : Nat) (it : ChildItem) :
    (attachAt ar p it).length = ar.length := by
  induction ar generalizing p with
  | nil => simp [attachAt]
  | cons nd rest ih =>
    cases p with
    | zero => simp [attachAt]
    | succ q => simp [attachAt, ih]

theorem mem_attachAt {ar : List TNode} {p : Nat} {it : ChildItem} {nd : TNode}
    (h : nd ∈ attachAt ar p it) :
    nd ∈ ar ∨ ∃ nd0, nd0 ∈ ar ∧ nd = ⟨nd0.kind, nd0.label, nd0.children ++ [it]⟩ := by
  induction ar generalizing p with
  | nil => simp [attachAt] at h
  | cons hd rest ih =>
    cases p with
    | zero =>
      rcases List.mem_cons.mp h with h1 | h1
      · exact Or.inr ⟨hd, List.mem_cons_self hd rest, h1⟩
      · exact Or.inl (List.mem_cons_of_mem hd h1)
    | succ q =>
      rcases List.mem_cons.mp h with h1 | h1
      · exact Or.inl (h1 ▸ List.mem_cons_self hd rest)
      · rcases ih h1 with h2 | ⟨nd0, hm, he⟩
        · exact Or.inl (List.mem_cons_of_mem hd h2)
        · exact Or.inr ⟨nd0, List.mem_cons_of_mem hd hm, he⟩

theorem nodeAt_attachAt_self (ar : List TNode) (p : Nat) (it : ChildItem) :
    nodeAt (attachAt ar p it) p =
      (nodeAt ar p).map (fun nd => ⟨nd.kind, nd.label, nd.children ++ [it]⟩) := by
  induction ar generalizing p with
  | nil => simp [attachAt, nodeAt]
  | cons hd rest ih =>
    cases p with
    | zero => simp [attachAt, nodeAt]
    | succ q => simpa [attachAt, nodeAt] using ih q

theorem nodeAt_attachAt_ne (ar : List TNode) (p q : Nat) (it : ChildItem) (h : p ≠ q) :
    nodeAt (attachAt ar p it) q = nodeAt ar q := by
  induction ar generalizing p q with
  | nil => simp [attachAt]
  | cons hd rest ih =>
    cases p with
    | zero =>
      cases q with
      | zero => exact absurd rfl h
      | succ q2 => simp [attachAt, nodeAt]
    | succ p2 =>
      cases q with
      | zero => simp [attachAt, nodeAt]
      | succ q2 =>
        simpa [attachAt, nodeAt] using ih p2 q2 (by omega)

theorem nodeAt_mem {ar : List TNode} {i : Nat} {nd : TNode} (h : nodeAt ar i = some nd) :
    nd ∈ ar := by
  induction ar generalizing i with
  | nil => simp [nodeAt] at h
  | cons hd rest ih =>
    cases i with
    | zero =>
      simp [nodeAt] at h
      exact h ▸ List.mem_cons_self hd rest
    | succ j => exact List.mem_cons_of_mem hd (ih h)

theorem nodeAt_lt_length {ar : List TNode} {i : Nat} {nd : TNode}
    (h : nodeAt ar i = some nd) : i < ar.length := by
  induction ar generalizing i with
  | nil => simp [nodeAt] at h
  | cons hd rest ih =>
    cases i with
    | zero => simp
    | succ j =>
      have := @ih j h
      simp
      omega

theorem nodeAt_isSome_of_lt {ar : List TNode} {i : Nat} (h : i < ar.length) :
    ∃ nd, nodeAt ar i = some nd := by
  induction ar generalizing i with
  | nil => simp at h
  | cons hd rest ih =>
    cases i with
    | zero => exact ⟨hd, rfl⟩
    | succ j => exact ih (by simpa using h)

theorem nodeAt_append_self (ar : List TNode) (x : TNode) :
    nodeAt (ar ++ [x]) ar.length = some x := by
  induction ar with
  | nil => simp [nodeAt]
  | cons hd rest ih => simpa [nodeAt] using ih

theorem nodeAt_append_lt (ar l : List TNode) {i : Nat} (h : i < ar.length) :
    nodeAt (ar ++ l) i = nodeAt ar i := by
  induction ar generalizing i with
  | nil => simp at h
  | cons hd rest ih =>
    cases i with
    | zero => simp [nodeAt]
    | succ j => simpa [nodeAt] using ih (by simpa using h)

theorem retChildren_extend (k : NodeKind) (l : String) (ch : List ChildItem) (it : ChildItem) :
    retChildren ⟨k, l, ch ++ [it]⟩
      = retChildren ⟨k, l, ch⟩ + (if isRetChild it then 1 else 0) := by
  simp only [retChildren, List.filter_append]
  cases h : isRetChild it <;> simp [h, List.filter]

/-! ## Builder-state invariants

While the event machine runs, no tree node ever receives a return-value label
(the only source line that could add one inside a trace callback, debugger.py
line 43, is unreachable: `trace_calls` is registered as the global settrace
callback, which only receives `"call"` events), and the recorded root index
stays inside the arena. -/

theorem noRetLabels_append {ar : List TNode} {x : TNode}
    (h : NoRetLabels ar) (hx : retChildren x = 0) : NoRetLabels (ar ++ [x]) := by
  intro nd hnd
  rcases List.mem_append.mp hnd with h1 | h1
  · exact h nd h1
  · rcases List.mem_singleton.mp h1 with rfl
    exact hx

theorem noRetLabels_attachAt {ar : List TNode} {p : Nat} {it : ChildItem}
    (h : NoRetLabels ar) (hit : isRetChild it = false) :
    NoRetLabels (attachAt ar p it) := by
  intro nd hnd
  rcases mem_attachAt hnd with h1 | ⟨nd0, hm, rfl⟩
  · exact h nd h1
  · rw [retChildren_extend, h nd0 hm, hit]
    simp

theorem addVarEntries_noRet {i : Nat} {L : List (String × Val)} :
    ∀ {ar ar2 : List TNode}, NoRetLabels ar → addVarEntries ar i L = .ok ar2 →
    NoRetLabels ar2 := by
  induction L with
  | nil =>
    intro ar ar2 h he
    simp [addVarEntries] at he
    exact he ▸ h
  | cons hd rest ih =>
    intro ar ar2 h he
    simp only [addVarEntries] at he
    cases hr : pyReprE hd.2 with
    | error e => rw [hr] at he; exact absurd he (by simp)
    | ok s =>
      rw [hr] at he
      exact ih (noRetLabels_attachAt h (by rfl)) he

theorem addVarEntries_length {i : Nat} {L : List (String × Val)} :
    ∀ {ar ar2 : List TNode}, addVarEntries ar i L = .ok ar2 →
    ar2.length = ar.length := by
  induction L with
  | nil =>
    intro ar ar2 he
    simp [addVarEntries] at he
    simp [he]
  | cons hd rest ih =>
    intro ar ar2 he
    simp only [addVarEntries] at he
    cases hr : pyReprE hd.2 with
    | error e => rw [hr] at he; exact absurd he (by simp)
    | ok s =>
      rw [hr] at he
      rw [ih he, attachAt_length]

/-- The two builder invariants bundled. -/
def DbgInv (st : DbgState) : Prop :=
  NoRetLabels st.arena ∧ TreeIdValid st

theorem traceCallsFn_call_inv {func : PyFunc} {c : Code} {st st2 : DbgState}
    {loc : Option DbgLocal} (h : DbgInv st)
    (he : traceCallsFn func c .call st = .ok (st2, loc)) : DbgInv st2 := by
  obtain ⟨ar, cs, dt⟩ := st
  obtain ⟨hn, hv⟩ := h
  by_cases hname : c.coName = func.name
  · simp only [traceCallsFn, if_pos hname] at he
    cases cs with
    | nil =>
      cases he
      constructor
      · exact noRetLabels_append hn (by rfl)
      · intro r hr
        simp only [Option.some.injEq] at hr
        subst hr
        simp
    | cons top rest =>
      cases he
      constructor
      · exact noRetLabels_attachAt (noRetLabels_append hn (by rfl)) (by rfl)
      · intro r hr
        have h2 := hv r hr
        simp only [] at h2
        simp only [attachAt_length, List.length_append, List.length_singleton]
        omega
  · simp only [traceCallsFn, if_neg hname] at he
    cases he
    exact ⟨hn, hv⟩

theorem traceLinesFn_inv {c : Code} {ev : PyEvent} {st st2 : DbgState}
    {loc : Option DbgLocal} (h : DbgInv st)
    (he : traceLinesFn c ev st = .ok (st2, loc)) : DbgInv st2 := by
  obtain ⟨ar, cs, dt⟩ := st
  obtain ⟨hn, hv⟩ := h
  cases ev with
  | call => cases he; exact ⟨hn, hv⟩
  | ret a => cases he; exact ⟨hn, hv⟩
  | line lineno src locals =>
    cases cs with
    | nil => cases he; exact ⟨hn, hv⟩
    | cons top rest =>
      simp only [traceLinesFn] at he
      by_cases hemp : locals.isEmpty
      · rw [if_pos hemp] at he
        cases he
        exact ⟨hn, hv⟩
      · rw [if_neg hemp] at he
        cases hav : addVarEntries (ar ++ [⟨.varsLine, varsLineLabel lineno c.coName, []⟩])
            ar.length locals with
        | error e =>
          rw [hav] at he
          exact absurd he (by simp)
        | ok ar2 =>
          rw [hav] at he
          cases he
          have hlen : ar2.length = ar.length + 1 := by
            rw [addVarEntries_length hav]; simp
          constructor
          · exact noRetLabels_attachAt
              (addVarEntries_noRet (noRetLabels_append hn (by rfl)) hav) (by rfl)
          · intro r hr
            have h2 := hv r hr
            simp only [] at h2
            simp only [attachAt_length, hlen]
            omega

theorem dbgStep_inv {func : PyFunc} {m : DbgMachine} {e : Ev}
    (h : DbgInv m.st) : DbgInv (dbgStep func m e).1.st := by
  cases e with
  | mk code kind =>
    cases kind with
    | call =>
      simp only [dbgStep]
      cases hc : traceCallsFn func code .call m.st with
      | ok r =>
        cases r with
        | mk st2 loc => exact traceCallsFn_call_inv h hc
      | error ex => exact h
    | line n src locals =>
      simp only [dbgStep]
      cases hf : m.frames with
      | nil => exact h
      | cons fr rest =>
        cases fr with
        | none => exact h
        | some l =>
          cases l with
          | traceLines =>
            cases hl : traceLinesFn code (.line n src locals) m.st with
            | ok r =>
              cases r with
              | mk st2 loc => exact traceLinesFn_inv h hl
            | error ex => exact h
    | ret a =>
      simp only [dbgStep]
      cases hf : m.frames with
      | nil => exact h
      | cons fr rest =>
        cases fr with
        | none => exact h
        | some l =>
          cases l with
          | traceLines =>
            cases hl : traceLinesFn code (.ret a) m.st with
            | ok r =>
              cases r with
              | mk st2 loc => exact traceLinesFn_inv h hl
            | error ex => exact h

theorem dbgRun_inv {func : PyFunc} {evs : List Ev} :
    ∀ {m : DbgMachine}, DbgInv m.st → DbgInv (dbgRun func m evs).1.st := by
  induction evs with
  | nil => intro m h; exact h
  | cons e rest ih =>
    intro m h
    simp only [dbgRun]
    cases hs : dbgStep func m e with
    | mk m2 exc =>
      have h2 : DbgInv m2.st := by
        have := @dbgStep_inv func m e h
        rw [hs] at this
        exact this
      cases exc with
      | none => exact ih h2
      | some ex => exact h2

/-! ## Pause-loop and step-controller lemmas -/

theorem pauseLoop_exc_cases : ∀ (ins : List String) (sm : Bool) (out : List StepOut),
    (pauseLoop sm ins out).exc = none ∨ (pauseLoop sm ins out).exc = some Exc.eofError
    ∨ (pauseLoop sm ins out).exc = some (Exc.systemExit 0) := by
  intro ins
  induction ins with
  | nil =>
    intro sm out
    cases sm with
    | false => exact Or.inl rfl
    | true => exact Or.inr (Or.inl rfl)
  | cons cmd rest ih =>
    intro sm out
    cases sm with
    | false => exact Or.inl rfl
    | true =>
      simp only [pauseLoop]
      by_cases h1 : pyLower (pyStrip cmd) = "n"
      · rw [if_pos h1]; exact Or.inl rfl
      · rw [if_neg h1]
        by_cases h2 : pyLower (pyStrip cmd) = "c"
        · rw [if_pos h2]; exact Or.inl rfl
        · rw [if_neg h2]
          by_cases h3 : pyLower (pyStrip cmd) = "q"
          · rw [if_pos h3]; exact Or.inr (Or.inr rfl)
          · rw [if_neg h3]; exact ih true (out ++ [StepOut.prompt])

theorem pauseLoop_not_paused (ins : List String) (out : List StepOut) :
    pauseLoop false ins out = ⟨false, ins, out, none⟩ := by
  cases ins <;> rfl

theorem stepTraceFn_nobp {func : PyFunc} {bp : Option Nat} {c : Code} {ev : PyEvent}
    {st : StepState} (hsm : st.stepMode = false)
    (hbp : ∀ n src loc, ev = PyEvent.line n src loc → bpCheck bp n = false) :
    (stepTraceFn func bp c ev st).1.stepMode = false
    ∧ (stepTraceFn func bp c ev st).1.inputs = st.inputs
    ∧ (stepTraceFn func bp c ev st).2.1 = none := by
  obtain ⟨sm, ins, out⟩ := st
  simp only [StepState.stepMode] at hsm
  subst hsm
  by_cases hname : c.coName ≠ func.name
  · simp [stepTraceFn, if_pos hname]
  · cases ev with
    | call => simp [stepTraceFn, if_neg hname]
    | ret a => simp [stepTraceFn, if_neg hname]
    | line n src locals =>
      have hb : bpCheck bp n = false := hbp n src locals rfl
      simp [stepTraceFn, if_neg hname, hb, pauseLoop_not_paused]

theorem stepStep_nobp {func : PyFunc} {bp : Option Nat} {m : StepMachine} {e : Ev}
    (hsm : m.st.stepMode = false)
    (hbp : ∀ n src loc, e.kind = PyEvent.line n src loc → bpCheck bp n = false) :
    (stepStep func bp m e).1.st.stepMode = false
    ∧ (stepStep func bp m e).1.st.inputs = m.st.inputs
    ∧ (stepStep func bp m e).2 = none := by
  obtain ⟨st, frames⟩ := m
  cases e with
  | mk code kind =>
    cases kind with
    | call =>
      have h := @stepTraceFn_nobp func bp code .call st hsm
        (by intro n src loc h; cases h)
      simpa [stepStep] using h
    | line n src locals =>
      cases frames with
      | nil => exact ⟨hsm, rfl, rfl⟩
      | cons fr rest =>
        cases fr with
        | false => exact ⟨hsm, rfl, rfl⟩
        | true =>
          have h := @stepTraceFn_nobp func bp code (.line n src locals) st hsm
            (by intro n2 src2 loc2 h2; cases h2; exact hbp n src locals rfl)
          simpa [stepStep] using h
    | ret a =>
      cases frames with
      | nil => exact ⟨hsm, rfl, rfl⟩
      | cons fr rest =>
        cases fr with
        | false => exact ⟨hsm, rfl, rfl⟩
        | true =>
          have h := @stepTraceFn_nobp func bp code (.ret a) st hsm
            (by intro n src loc h; cases h)
          simpa [stepStep] using h

theorem stepRun_nobp {func : PyFunc} {bp : Option Nat} {evs : List Ev} :
    ∀ {m : StepMachine}, m.st.stepMode = false →
    (∀ e ∈ evs, ∀ n src loc, e.kind = PyEvent.line n src loc → bpCheck bp n = false) →
    (stepRun func bp m evs).2 = none
    ∧ (stepRun func bp m evs).1.st.inputs = m.st.inputs
    ∧ (stepRun func bp m evs).1.st.stepMode = false := by
  induction evs with
  | nil => intro m hsm _; exact ⟨rfl, rfl, hsm⟩
  | cons e rest ih =>
    intro m hsm hbp
    have h1 := @stepStep_nobp func bp m e hsm
      (hbp e (List.mem_cons_self e rest))
    simp only [stepRun]
    cases hs : stepStep func bp m e with
    | mk m2 exc =>
      rw [hs] at h1
      obtain ⟨ha, hb, hc⟩ := h1
      cases exc with
      | none =>
        have h2 := @ih m2 ha (fun e2 he2 => hbp e2 (List.mem_cons_of_mem e he2))
        exact ⟨h2.1, h2.2.1.trans hb, h2.2.2⟩
      | some ex => exact absurd hc (by simp)

/-! ## Shape of the wrapper output -/

theorem dbgFinally_out_shape (st : DbgState) (tl : Bool) (res : Except Exc Val) (et : ℚ) :
    (dbgFinally st tl res et).2.1 = []
    ∨ ∃ r, st.debugTree = some r
        ∧ (dbgFinally st tl res et).2.1 = [OutEv.tree r, OutEv.time et] := by
  obtain ⟨ar, cs, dt⟩ := st
  cases tl with
  | false => exact Or.inl rfl
  | true =>
    cases dt with
    | none => exact Or.inl rfl
    | some root =>
      cases res with
      | error ex => exact Or.inl rfl
      | ok v =>
        cases v with
        | int n => exact Or.inr ⟨root, rfl, rfl⟩
        | pyNone => exact Or.inr ⟨root, rfl, rfl⟩
        | badRepr => exact Or.inl rfl

theorem dbgFinally_retlab {s : DbgState} {tl : Bool} {res0 : Except Exc Val} {et : ℚ}
    {st : DbgState} {out : List OutEv} {res : Except Exc Val}
    (h : DbgInv s) (hf : dbgFinally s tl res0 et = (st, out, res)) :
    (∀ nd ∈ st.arena, retChildren nd ≤ 1)
    ∧ ∀ r, OutEv.tree r ∈ out → retChildrenAt st.arena r = 1 := by
  obtain ⟨ar, cs, dt⟩ := s
  obtain ⟨hn, hv⟩ := h
  have hbase : (∀ nd ∈ ar, retChildren nd ≤ 1)
      ∧ ∀ r, OutEv.tree r ∈ ([] : List OutEv) → retChildrenAt ar r = 1 := by
    refine ⟨fun nd hnd => ?_, fun r hr => absurd hr (List.not_mem_nil _)⟩
    rw [hn nd hnd]
    omega
  cases tl with
  | false => cases hf; exact hbase
  | true =>
    cases dt with
    | none => cases hf; exact hbase
    | some root =>
      cases res0 with
      | error ex => cases hf; exact hbase
      | ok v =>
        cases v with
        | badRepr => cases hf; exact hbase
        | int n =>
          cases hf
          constructor
          · intro nd hnd
            rcases mem_attachAt hnd with h1 | ⟨nd0, hm, rfl⟩
            · rw [hn nd h1]; omega
            · rw [retChildren_extend, hn nd0 hm]
              simp [isRetChild]
          · intro r hr
            rcases List.mem_cons.mp hr with he | hr2
            · cases he
              have hlt : root < ar.length := hv root rfl
              obtain ⟨nd0, h0⟩ := nodeAt_isSome_of_lt hlt
              rw [retChildrenAt, nodeAt_attachAt_self, h0]
              simp only [Option.map_some']
              rw [retChildren_extend, hn nd0 (nodeAt_mem h0)]
              simp [isRetChild]
            · rcases List.mem_cons.mp hr2 with he | hr3
              · cases he
              · cases hr3
        | pyNone =>
          cases hf
          constructor
          · intro nd hnd
            rcases mem_attachAt hnd with h1 | ⟨nd0, hm, rfl⟩
            · rw [hn nd h1]; omega
            · rw [retChildren_extend, hn nd0 hm]
              simp [isRetChild]
          · intro r hr
            rcases List.mem_cons.mp hr with he | hr2
            · cases he
              have hlt : root < ar.length := hv root rfl
              obtain ⟨nd0, h0⟩ := nodeAt_isSome_of_lt hlt
              rw [retChildrenAt, nodeAt_attachAt_self, h0]
              simp only [Option.map_some']
              rw [retChildren_extend, hn nd0 (nodeAt_mem h0)]
              simp [isRetChild]
            · rcases List.mem_cons.mp hr2 with he | hr3
              · cases he
              · cases hr3

theorem pauseLoop_no_reprFailure (sm : Bool) (ins : List String) (out : List StepOut) :
    (pauseLoop sm ins out).exc ≠ some Exc.reprFailure := by
  rcases pauseLoop_exc_cases ins sm out with h | h | h <;> rw [h] <;> simp

/-! ## Claim theorems -/

/-- Claim C1 (code bug evidence).  The claim says that on the `"return"` event
the builder attaches the return label to the stack top, pops `CALL_STACK`, and
flushes when the stack empties.  In the code, `trace_calls` is registered only
as the global settrace callback, which receives `"call"` events only; the
`"return"` event of the traced frame is delivered to the frame's local tracer
`trace_lines`, which ignores it.  Evaluated on the §8 scenario `f(x=5, y=10)`:
the run raises nothing, yet after the top-level return `CALL_STACK` still
holds the root (never popped), the builder attached no return label to the
root, the frame's local tracer at the return event was `trace_lines`, and
`trace_lines` maps the return event to an unchanged state. -/
theorem c1_return_event_never_reaches_builder :
    (dbgRun funcF ⟨dbgInit0, []⟩ scAEvents).2 = none
    ∧ (dbgRun funcF ⟨dbgInit0, []⟩ scAEvents).1.st.callStack = [0]
    ∧ retChildrenAt (dbgRun funcF ⟨dbgInit0, []⟩ scAEvents).1.st.arena 0 = 0
    ∧ (dbgRun funcF ⟨dbgInit0, []⟩ (scAEvents.take 3)).1.frames = [some DbgLocal.traceLines]
    ∧ traceLinesFn fCode (.ret (.int 15)) (dbgRun funcF ⟨dbgInit0, []⟩ (scAEvents.take 3)).1.st
        = .ok ((dbgRun funcF ⟨dbgInit0, []⟩ (scAEvents.take 3)).1.st, some DbgLocal.traceLines) :=
  ⟨rfl, rfl, rfl, rfl, rfl⟩

/-- Claim C2 (code bug evidence).  The claim says that when the wrapped
function raises, the original error propagates unchanged and the partially
built tree is discarded.  Evaluated on a first traced call of `f` whose body
raises `ValueError("boom")`: the `finally` block reaches line 76 with
`is_top_level` true and `DEBUG_TREE` set, reads the never-bound variable
`result`, and so raises `UnboundLocalError` — the caller receives that instead
of the original error; `DEBUG_TREE` still holds the partial tree and nothing
was printed.  (The hook teardown at line 72 did run before the crash.) -/
theorem c2_unbound_result_masks_original_error :
    (dbgWrapper funcF dbgInit0 scRaiseEvents (.error (.userError ("boom"))) 0 1).2.2
        = .error (.unboundLocal ("result"))
    ∧ (dbgWrapper funcF dbgInit0 scRaiseEvents (.error (.userError ("boom"))) 0 1).2.2
        ≠ .error (.userError ("boom"))
    ∧ (dbgWrapper funcF dbgInit0 scRaiseEvents (.error (.userError ("boom"))) 0 1).1.debugTree
        = some 0
    ∧ (dbgWrapper funcF dbgInit0 scRaiseEvents (.error (.userError ("boom"))) 0 1).2.1 = [] := by
  refine ⟨rfl, ?_, rfl, rfl⟩
  intro h
  exact Exc.noConfusion (Except.error.inj h)

/-- Claim C3 counterexample.  The claim says events are forwarded if and only
if the frame has the same *code identity* as the traced function, and that a
different function with the same name is discarded.  A call event from a
distinct code object (identity 1) that happens to be named `f` like the traced
function (identity 0) is forwarded to the builder and to the controller. -/
theorem c3_same_name_different_code_forwarded :
    forwardedToBuilder funcF otherFCode = true
    ∧ forwardedToController funcF (some 8) otherFCode (.line 8 ("x = 1") []) ⟨false, [], []⟩
        = true
    ∧ otherFCode.id ≠ fCode.id := by
  refine ⟨rfl, rfl, ?_⟩
  decide

/-- Claim C3, amended.  The router filters by the frame's code object *name*
(`frame.f_code.co_name == func.__name__`, debugger.py lines 27 and 108):
an event whose code name differs from the traced function's name leaves the
state unchanged and registers no tracer (silently discarded), in both tracing
modes; an event whose code name matches is forwarded to the handler, whatever
its code identity. -/
theorem c3_filter_is_by_code_name (func : PyFunc) (bp : Option Nat) (c : Code)
    (ev : PyEvent) (st : DbgState) (sst : StepState) :
    (c.coName ≠ func.name →
      traceCallsFn func c ev st = .ok (st, none)
      ∧ stepTraceFn func bp c ev sst = (sst, none, none))
    ∧ (c.coName = func.name →
      (∀ st2 t, traceCallsFn func c ev st = .ok (st2, t) → t = some DbgLocal.traceLines)
      ∧ (stepTraceFn func bp c ev sst).2.2 = some ()) := by
  constructor
  · intro h
    constructor
    · simp [traceCallsFn, if_neg h]
    · simp [stepTraceFn, if_pos h]
  · intro h
    have hnn : ¬ c.coName ≠ func.name := not_not_intro h
    constructor
    · intro st2 t he
      obtain ⟨ar, cs, dt⟩ := st
      simp only [traceCallsFn, if_pos h] at he
      cases ev with
      | call =>
        cases cs with
        | nil => cases he; rfl
        | cons top rest => cases he; rfl
      | ret a =>
        cases cs with
        | nil => cases he
        | cons top rest =>
          cases a with
          | int n => cases he; rfl
          | pyNone => cases he; rfl
          | badRepr => cases he
      | line n src locals => cases he; rfl
    · cases ev with
      | call => simp [stepTraceFn, if_neg hnn]
      | ret a => simp [stepTraceFn, if_neg hnn]
      | line n src locals => simp [stepTraceFn, if_neg hnn]

/-- Witness for the amended C3 theorem: a call event from a code object named
`g` is discarded while tracing `f`. -/
theorem c3_filter_is_by_code_name_witness :
    Code.coName ⟨2, "g"⟩ ≠ funcF.name
    ∧ traceCallsFn funcF ⟨2, "g"⟩ .call dbgInit0 = .ok (dbgInit0, none) :=
  ⟨by decide,
   ((c3_filter_is_by_code_name funcF none ⟨2, "g"⟩ .call dbgInit0 ⟨false, [], []⟩).1
     (by decide)).1⟩

/-- Claim C4 counterexample.  The claim says the node label carries the
*invocation's bound-argument* signature.  The code builds the label from
`inspect.signature(func)` (debugger.py lines 30-31), i.e. the declared
signature with defaults, independent of the actual arguments: for the
invocation `f(1, 2)` the label still reads `f(x=5, y=10)`, not the claimed
`f(x=1, y=2)`; the two coincide only when the bound arguments happen to equal
the declared defaults (the §8 scenario). -/
theorem c4_label_not_bound_arguments :
    callLabel funcF ≠ claimedCallLabel funcF [("x", 1), ("y", 2)]
    ∧ callLabel funcF = claimedCallLabel funcF [("x", 5), ("y", 10)]
    ∧ (∀ st2 t, traceCallsFn funcF fCode .call dbgInit0 = .ok (st2, t) →
        nodeAt st2.arena 0 = some ⟨.callNode, callLabel funcF, []⟩) := by
  refine ⟨by decide, by decide, ?_⟩
  intro st2 t he
  cases he
  rfl

/-- Claim C4, amended.  On a `"call"` event whose code name matches, the
builder constructs a node labelled with the function name and its *declared*
signature (`inspect.signature`), appends it as a child of the stack-top node
when `CALL_STACK` is non-empty and otherwise installs it as the session root,
and pushes it onto `CALL_STACK`. -/
theorem c4_call_node_attach_and_push (func : PyFunc) (c : Code) (st : DbgState)
    (h : c.coName = func.name) :
    (st.callStack = [] →
      traceCallsFn func c .call st
        = .ok (⟨st.arena ++ [⟨.callNode, callLabel func, []⟩], [st.arena.length],
               some st.arena.length⟩, some .traceLines))
    ∧ (∀ top rest, st.callStack = top :: rest →
      traceCallsFn func c .call st
        = .ok (⟨attachAt (st.arena ++ [⟨.callNode, callLabel func, []⟩]) top
                 (.sub st.arena.length),
               st.arena.length :: top :: rest, st.debugTree⟩, some .traceLines)
      ∧ ∀ nd0, nodeAt st.arena top = some nd0 →
          nodeAt (attachAt (st.arena ++ [⟨.callNode, callLabel func, []⟩]) top
              (.sub st.arena.length)) top
            = some ⟨nd0.kind, nd0.label, nd0.children ++ [.sub st.arena.length]⟩)
    ∧ ((∀ x ∈ st.callStack, x < st.arena.length) →
       ∀ st2 t, traceCallsFn func c .call st = .ok (st2, t) →
        nodeAt st2.arena st.arena.length = some ⟨.callNode, callLabel func, []⟩
        ∧ st2.callStack = st.arena.length :: st.callStack) := by
  obtain ⟨ar, cs, dt⟩ := st
  refine ⟨?_, ?_, ?_⟩
  · intro hcs
    simp only at hcs
    subst hcs
    simp [traceCallsFn, if_pos h]
  · intro top rest hcs
    simp only at hcs
    subst hcs
    constructor
    · simp [traceCallsFn, if_pos h]
    · intro nd0 h0
      have hlt : top < ar.length := nodeAt_lt_length h0
      rw [nodeAt_attachAt_self, nodeAt_append_lt ar _ hlt, h0]
      rfl
  · intro hvalid st2 t he
    simp only [traceCallsFn, if_pos h] at he
    cases cs with
    | nil =>
      cases he
      exact ⟨nodeAt_append_self ar _, rfl⟩
    | cons top rest =>
      cases he
      have hlt : top < ar.length := hvalid top (List.mem_cons_self top rest)
      constructor
      · rw [nodeAt_attachAt_ne _ top ar.length _ (by omega), nodeAt_append_self]
      · rfl

/-- Witness for the amended C4 theorem, at the §8 scenario: the first call
event installs the labelled root and pushes it. -/
theorem c4_call_node_attach_and_push_witness :
    Code.coName fCode = funcF.name
    ∧ traceCallsFn funcF fCode .call dbgInit0
        = .ok (⟨[⟨.callNode, callLabel funcF, []⟩], [0], some 0⟩, some .traceLines) :=
  ⟨rfl, (c4_call_node_attach_and_push funcF fCode dbgInit0 rfl).1 rfl⟩

/-- Claim C5, confirmed.  For every tree-tracing session started from the
initial module state — any event sequence, any outcome of the traced call, any
clock readings — every tree node ends the session carrying at most one
return-value label, and the root flushed by a completed top-level call carries
exactly one.  (The `"return"` branch of `trace_calls`, which would have added
a second label to the root, never runs: the global settrace callback receives
only `"call"` events, so the sole return label is the one the wrapper's
`finally` block adds.) -/
theorem c5_return_label_attached_at_most_once (func : PyFunc) (evs : List Ev)
    (fr : Except Exc Val) (t0 t1 : ℚ) {st : DbgState} {out : List OutEv}
    {res : Except Exc Val}
    (hw : dbgWrapper func dbgInit0 evs fr t0 t1 = (st, out, res)) :
    (∀ nd ∈ st.arena, retChildren nd ≤ 1)
    ∧ ∀ r, OutEv.tree r ∈ out → retChildrenAt st.arena r = 1 := by
  have hinv : DbgInv (dbgRun func ⟨dbgInit0, []⟩ evs).1.st := by
    refine dbgRun_inv ⟨?_, ?_⟩
    · intro nd hnd
      exact absurd hnd (List.not_mem_nil nd)
    · intro r hr
      simp [dbgInit0] at hr
  unfold dbgWrapper at hw
  exact dbgFinally_retlab hinv hw

/-- Witness for C5 at the §8 scenario: the flushed root carries exactly one
return-value label. -/
theorem c5_return_label_attached_at_most_once_witness :
    OutEv.tree 0 ∈ (dbgWrapper funcF dbgInit0 scAEvents (Except.ok (Val.int 15)) 0 1).2.1
    ∧ retChildrenAt (dbgWrapper funcF dbgInit0 scAEvents (Except.ok (Val.int 15)) 0 1).1.arena 0
        = 1 := by
  constructor
  · exact List.mem_cons_self _ _
  · exact (@c5_return_label_attached_at_most_once funcF scAEvents (Except.ok (Val.int 15))
      0 1 _ _ _ rfl).2 0 (List.mem_cons_self _ _)

/-- Claim C6 counterexample.  The claim says that after `resume` the
breakpoint check is suppressed for the remainder of the session, even when the
breakpoint line re-executes in a loop.  Tracing `g` with breakpoint line 8 and
a loop body that executes line 8 twice: the operator resumes at the first
pause, yet the second execution of line 8 re-enters `step_mode` (debugger.py
lines 115-117 run on every line event) and pauses again, consuming a second
command — and when no second command is supplied, the session blocks demanding
one. -/
theorem c6_repause_on_breakpoint_reexecution :
    (stepRun funcG (some 8) ⟨⟨false, ["c", "c"], []⟩, []⟩ scLoopEvents).1.st.out.count
        (StepOut.bpHit 8) = 2
    ∧ (stepRun funcG (some 8) ⟨⟨false, ["c", "c"], []⟩, []⟩ scLoopEvents).1.st.inputs = []
    ∧ (stepRun funcG (some 8) ⟨⟨false, ["c"], []⟩, []⟩ scLoopEvents).2 = some Exc.eofError := by
  refine ⟨?_, rfl, rfl⟩
  decide

/-- Claim C6, amended.  After `resume` clears `step_mode`, the controller
pauses again exactly when a later line event hits the (truthy) breakpoint
line; in particular, when no remaining line event matches the breakpoint line,
the traced call runs to completion with no further pause: no exception, no
operator input consumed, `step_mode` still clear.  (In a loop the breakpoint
line does re-execute and the controller re-pauses — the counterexample.) -/
theorem c6_no_pause_without_breakpoint_line (func : PyFunc) (bp : Option Nat)
    (m : StepMachine) (evs : List Ev) (hsm : m.st.stepMode = false)
    (hbp : ∀ e ∈ evs, ∀ n src loc, e.kind = PyEvent.line n src loc → bpCheck bp n = false) :
    (stepRun func bp m evs).2 = none
    ∧ (stepRun func bp m evs).1.st.inputs = m.st.inputs
    ∧ (stepRun func bp m evs).1.st.stepMode = false :=
  stepRun_nobp hsm hbp

/-- Witness for the amended C6 theorem: after resume (step mode clear), a run
whose remaining line events avoid the breakpoint line completes without
touching the operator input. -/
theorem c6_no_pause_without_breakpoint_line_witness :
    (stepRun funcG (some 8) ⟨⟨false, [], []⟩, []⟩
        [⟨gCode, .line 9 ("return total") [("total", .int 1)]⟩, ⟨gCode, .ret (.int 1)⟩]).2
      = none
    ∧ (stepRun funcG (some 8) ⟨⟨false, [], []⟩, []⟩
        [⟨gCode, .line 9 ("return total") [("total", .int 1)]⟩, ⟨gCode, .ret (.int 1)⟩]).1.st.inputs
      = ([] : List String)
    ∧ (stepRun funcG (some 8) ⟨⟨false, [], []⟩, []⟩
        [⟨gCode, .line 9 ("return total") [("total", .int 1)]⟩, ⟨gCode, .ret (.int 1)⟩]).1.st.stepMode
      = false :=
  c6_no_pause_without_breakpoint_line funcG (some 8) ⟨⟨false, [], []⟩, []⟩
    [⟨gCode, .line 9 ("return total") [("total", .int 1)]⟩, ⟨gCode, .ret (.int 1)⟩] rfl
    (by
      intro e he n src loc hk
      rcases List.mem_cons.mp he with rfl | he2
      · cases hk
        decide
      · rcases List.mem_cons.mp he2 with rfl | he3
        · cases hk
        · cases he3)

/-- Claim C7 counterexample.  The claim says `abort` terminates the host
process immediately and control never returns to the caller.  The code runs
`sys.exit(0)` (debugger.py line 127), which raises `SystemExit(0)` — an
ordinary catchable exception: it propagates out of the traced call through the
wrapper's `finally` (so the wrapper returns an exception to its caller), and a
caller wrapping the call in `except SystemExit` regains control.  The process
only exits (with the clean status 0) when no caller intercepts it. -/
theorem c7_abort_is_catchable_exception :
    (stepWrapper funcG (some 8) ["q"] scOnceEvents (.ok (.int 0))).1
        = .error (.systemExit 0)
    ∧ callerCatchingSystemExit
        (stepWrapper funcG (some 8) ["q"] scOnceEvents (.ok (.int 0))).1
        = some ("recovered") :=
  ⟨rfl, rfl⟩

/-- Claim C7, amended.  At a pause, an operator command whose
stripped-and-lowercased form is `q` makes the controller print the stop notice
and raise `SystemExit(0)` (exit code 0, the conventional clean status); any
exception raised inside the trace run propagates out of the wrapper to the
caller of the traced function, with the trace hook unregistered by the
`finally` block on the way out. -/
theorem c7_abort_raises_system_exit_zero :
    (∀ (cmd : String) (rest : List String) (out : List StepOut),
        pyLower (pyStrip cmd) = "q" →
        pauseLoop true (cmd :: rest) out
          = ⟨true, rest, out ++ [StepOut.prompt, StepOut.stopped], some (Exc.systemExit 0)⟩)
    ∧ (∀ (func : PyFunc) (bp : Option Nat) (inputs : List String) (evs : List Ev)
        (fr : Except Exc Val) (ex : Exc),
        (stepRun func bp ⟨⟨false, inputs, []⟩, []⟩ evs).2 = some ex →
        (stepWrapper func bp inputs evs fr).1 = .error ex
        ∧ (stepWrapper func bp inputs evs fr).2.2 = false) := by
  constructor
  · intro cmd rest out h
    have h1 : ¬ pyLower (pyStrip cmd) = "n" := by rw [h]; decide
    have h2 : ¬ pyLower (pyStrip cmd) = "c" := by rw [h]; decide
    simp only [pauseLoop, if_neg h1, if_neg h2, if_pos h]
  · intro func bp inputs evs fr ex h
    refine ⟨?_, rfl⟩
    simp only [stepWrapper, h]

/-- Witness for the amended C7 theorem: quitting at a pause, and the resulting
`SystemExit 0` propagating out of the wrapper for the concrete session. -/
theorem c7_abort_raises_system_exit_zero_witness :
    pyLower (pyStrip ("q")) = "q"
    ∧ pauseLoop true ["q"] []
        = ⟨true, [], [StepOut.prompt, StepOut.stopped], some (Exc.systemExit 0)⟩
    ∧ (stepWrapper funcG (some 8) ["q"] scOnceEvents (Except.ok (Val.int 0))).1
        = .error (Exc.systemExit 0) :=
  ⟨by decide,
   (c7_abort_raises_system_exit_zero).1 ("q") [] [] (by decide),
   ((c7_abort_raises_system_exit_zero).2 funcG (some 8) ["q"] scOnceEvents
     (Except.ok (Val.int 0)) (Exc.systemExit 0) rfl).1⟩

/-- Claim C8 counterexample.  The claim says that in both the step debugger
and the tree tracer, a binding whose string conversion throws is rendered as a
placeholder and no exception escapes the snapshot formatting.  In the tree
tracer, `trace_lines` calls `repr(val)` with no guard (debugger.py line 57):
on a line event whose locals contain such a value the exception escapes the
trace callback (aborting the trace) instead of being recovered. -/
theorem c8_tree_tracer_repr_exception_escapes :
    pyReprE Val.badRepr = .error Exc.reprFailure
    ∧ (dbgRun funcF ⟨dbgInit0, []⟩ scBadReprEvents).2 = some Exc.reprFailure :=
  ⟨rfl, rfl⟩

/-- Claim C8, amended (the step-debugger half of the claim holds).  The
formatter `_display_variables` recovers every rendering failure locally: a
displayed binding (name not reserved with a leading double underscore) whose
`repr` raises appears in the table as the fixed placeholder; and no exception
leaving the step controller's trace callback is ever a rendering failure —
its only exceptions come from the operator-command wait (`SystemExit` on quit,
or the blocked prompt). -/
theorem c8_step_formatter_never_raises :
    (∀ (vars : List (String × Val)) (n : String) (v : Val),
        (n, v) ∈ vars → String.startsWith n ("__") = false →
        pyReprE v = .error Exc.reprFailure →
        (n, cannotDisplay) ∈ displayRows vars)
    ∧ (∀ (func : PyFunc) (bp : Option Nat) (c : Code) (ev : PyEvent) (st : StepState),
        (stepTraceFn func bp c ev st).2.1 ≠ some Exc.reprFailure) := by
  constructor
  · intro vars
    induction vars with
    | nil =>
      intro n v hm hp hr
      exact absurd hm (List.not_mem_nil _)
    | cons hd rest ih =>
      intro n v hm hp hr
      obtain ⟨hd1, hd2⟩ := hd
      rcases List.mem_cons.mp hm with he | hm2
      · rw [Prod.mk.injEq] at he
        obtain ⟨rfl, rfl⟩ := he
        simp only [displayRows]
        rw [hp, hr]
        simp
      · simp only [displayRows]
        by_cases hh : String.startsWith hd1 ("__")
        · rw [if_pos hh]
          exact ih n v hm2 hp hr
        · rw [if_neg hh]
          exact List.mem_cons_of_mem _ (ih n v hm2 hp hr)
  · intro func bp c ev st
    obtain ⟨sm, ins, out⟩ := st
    by_cases hname : c.coName ≠ func.name
    · simp [stepTraceFn, if_pos hname]
    · cases ev with
      | call => simp [stepTraceFn, if_neg hname]
      | ret a => simp [stepTraceFn, if_neg hname]
      | line n src locals =>
        simp only [stepTraceFn, if_neg hname]
        exact pauseLoop_no_reprFailure _ _ _

/-- Witness for the amended C8 theorem: a binding to a value whose `repr`
raises is rendered as the placeholder row. -/
theorem c8_step_formatter_never_raises_witness :
    String.startsWith ("x") ("__") = false
    ∧ pyReprE Val.badRepr = .error Exc.reprFailure
    ∧ ("x", cannotDisplay) ∈ displayRows [("x", Val.badRepr)] :=
  ⟨by decide, rfl,
   (c8_step_formatter_never_raises).1 [("x", Val.badRepr)] ("x") Val.badRepr
     (List.mem_cons_self _ _) (by decide) rfl⟩

/-- Claim C9 counterexample.  The claim says the elapsed time is measured on a
monotonic clock and is never negative.  The code differences two `time.time()`
readings (debugger.py lines 67 and 73) — the wall clock, which the platform
may step backwards between the two reads; with readings 5 then 4 (seconds)
the session reports −1000 ms. -/
theorem c9_negative_elapsed_on_clock_step_back :
    OutEv.time (-1000) ∈ (dbgWrapper funcF dbgInit0 scAEvents (.ok (.int 15)) 5 4).2.1
    ∧ ¬ (0 ≤ (-1000 : ℚ)) := by
  constructor
  · have h : ((4 : ℚ) - 5) * 1000 = -1000 := by norm_num
    have hm : OutEv.time (((4 : ℚ) - 5) * 1000)
        ∈ (dbgWrapper funcF dbgInit0 scAEvents (.ok (.int 15)) 5 4).2.1 := by
      exact List.mem_cons_of_mem _ (List.mem_cons_self _ _)
    rw [h] at hm
    exact hm
  · norm_num

/-- Claim C9, amended.  The reported elapsed time is the difference of the two
wall-clock (`time.time()`) readings converted to milliseconds (and printed
with two decimals); it is non-negative whenever the second reading is at least
the first — which a monotonic clock would guarantee, but the wall clock does
not. -/
theorem c9_elapsed_ms_nonneg_when_clock_advances (func : PyFunc) (evs : List Ev)
    (fr : Except Exc Val) (t0 t1 : ℚ) (h : t0 ≤ t1) :
    ∀ ms, OutEv.time ms ∈ (dbgWrapper func dbgInit0 evs fr t0 t1).2.1 →
      ms = (t1 - t0) * 1000 ∧ 0 ≤ ms := by
  intro ms hm
  have key : ∀ (s : DbgState) (tl : Bool) (r0 : Except Exc Val),
      OutEv.time ms ∈ (dbgFinally s tl r0 ((t1 - t0) * 1000)).2.1 →
      ms = (t1 - t0) * 1000 := by
    intro s tl r0 hm2
    rcases dbgFinally_out_shape s tl r0 ((t1 - t0) * 1000) with hs | ⟨r, _, hs⟩
    · rw [hs] at hm2
      exact absurd hm2 (List.not_mem_nil _)
    · rw [hs] at hm2
      rcases List.mem_cons.mp hm2 with he | hm3
      · cases he
      · rcases List.mem_cons.mp hm3 with he | hm4
        · cases he
          rfl
        · exact absurd hm4 (List.not_mem_nil _)
  unfold dbgWrapper at hm
  have hms := key _ _ _ hm
  refine ⟨hms, ?_⟩
  rw [hms]
  have : (0 : ℚ) ≤ t1 - t0 := by linarith
  positivity

/-- Witness for the amended C9 theorem at the §8 scenario with the clock
advancing from 0 to 1 second: the reported value is 1000 ms and non-negative. -/
theorem c9_elapsed_ms_nonneg_when_clock_advances_witness :
    ((0 : ℚ) ≤ 1)
    ∧ ((1 - 0 : ℚ) * 1000 = (1 - 0) * 1000 ∧ (0 : ℚ) ≤ (1 - 0) * 1000) :=
  ⟨by norm_num,
   c9_elapsed_ms_nonneg_when_clock_advances funcF scAEvents (Except.ok (Val.int 15)) 0 1
     (by norm_num) ((1 - 0) * 1000)
     (List.mem_cons_of_mem _ (List.mem_cons_self _ _))⟩

/-- Claim C10, confirmed.  While paused, an operator input whose
stripped-and-lowercased form is none of `n`, `c`, `q` makes the loop consume
that one input and prompt again, leaving everything else exactly as it was:
the controller is still paused on the same line event (no line executes inside
the loop), no state changes, and nothing is raised. -/
theorem c10_unrecognized_command_reprompts (cmd : String) (rest : List String)
    (out : List StepOut) (h : recognizedCmd cmd = false) :
    pauseLoop true (cmd :: rest) out = pauseLoop true rest (out ++ [StepOut.prompt]) := by
  have h1 : ¬ pyLower (pyStrip cmd) = "n" := by
    intro he
    simp [recognizedCmd, he] at h
  have h2 : ¬ pyLower (pyStrip cmd) = "c" := by
    intro he
    simp [recognizedCmd, he] at h
  have h3 : ¬ pyLower (pyStrip cmd) = "q" := by
    intro he
    simp [recognizedCmd, he] at h
  simp only [pauseLoop, if_neg h1, if_neg h2, if_neg h3]

/-- Witness for C10: the input `x` (and even a padded upper-case `  X  `) just
re-prompts. -/
theorem c10_unrecognized_command_reprompts_witness :
    recognizedCmd ("x") = false
    ∧ pauseLoop true ["x", "c"] [] = pauseLoop true ["c"] [StepOut.prompt] :=
  ⟨by decide, c10_unrecognized_command_reprompts ("x") ["c"] [] (by decide)⟩

end Devtools
